import Mathlib

/-
Verification development for the post-call-analytics result-extraction
pipeline (src/transcribe_jobs_results.py).

The pipeline flattens one nested analytics document per job row into a flat
record.  We embed the JSON documents, the pandas one-row frames, and the three
extraction passes (transcript, summarization, characteristics) as executable
Lean definitions, translated statement-by-statement from the Python source,
and prove the frozen claims about them.

Modelling conventions:
  * A JSON value is `Json`; Python `None` and pandas `NaN` are both `Json.null`
    (the claims only distinguish null from non-null).
  * Numbers are exact rationals.  Python's true division `x / 1000` is rational
    division; JSON integers are rationals with denominator 1.
  * A pandas row is an ordered association list of column-name/value pairs
    (`Row`).  Column assignment `df[c] = v` overwrites an existing column in
    place and appends a new one at the end, as pandas does.
  * Each assembler is called on a one-row frame (`tmp.loc[[i], :]` /
    `tmp.iloc[[i], :]`), so `for i in row["job_response_output"]` iterates the
    single cell value of that column: the loop body runs exactly once, with the
    loop variable bound to the attached document itself.  The embeddings
    therefore take that document directly.
  * A `try/except` block is embedded by making every fallible Python operation
    return `Option` and mapping `none` (any raised exception: KeyError,
    TypeError, AttributeError, IndexError, NameError, ValueError) to the
    block's fallback value.
-/

/-- A JSON value as produced by `json()` on the fetched transcript file.
`null` also stands for Python `None` and pandas `NaN`. -/
inductive Json where
  | null
  | bool (b : Bool)
  | num (q : ℚ)
  | str (s : String)
  | arr (xs : List Json)
  | obj (kvs : List (String × Json))
deriving Repr

mutual

/-- Structural equality test on JSON values. -/
def jsonBeq : Json → Json → Bool
  | .null, .null => true
  | .bool a, .bool b => a == b
  | .num a, .num b => a == b
  | .str a, .str b => a == b
  | .arr xs, .arr ys => jsonBeqList xs ys
  | .obj a, .obj b => jsonBeqObj a b
  | _, _ => false

def jsonBeqList : List Json → List Json → Bool
  | [], [] => true
  | x :: xs, y :: ys => jsonBeq x y && jsonBeqList xs ys
  | _, _ => false

def jsonBeqObj : List (String × Json) → List (String × Json) → Bool
  | [], [] => true
  | p :: ps, q :: qs => (p.1 == q.1 && jsonBeq p.2 q.2) && jsonBeqObj ps qs
  | _, _ => false

end


namespace Json

/-- First binding of a key in an object's field list (Python dicts produced by
`json.load` have no duplicate keys, so first = only). -/
def lookupKey : List (String × Json) → String → Option Json
  | [], _ => none
  | p :: r, k => if p.1 = k then some p.2 else lookupKey r k

/-- Python subscript `j[k]` with a string key: `KeyError` when the key is
absent, `TypeError` when `j` is not a dict; both become `none`. -/
def index : Json → String → Option Json
  | .obj kvs, k => lookupKey kvs k
  | _, _ => none

/-- Python subscript `j[n]` with an integer index: `IndexError` out of range,
`TypeError` when `j` is not a list; both become `none`. -/
def atIdx : Json → Nat → Option Json
  | .arr xs, n => xs.get? n
  | _, _ => none

/-- Python truthiness of a JSON value (`if transcript_dict:`). -/
def truthy : Json → Bool
  | .null => false
  | .bool b => b
  | .num q => decide (q ≠ 0)
  | .str s => decide (s ≠ "")
  | .arr xs => !xs.isEmpty
  | .obj kvs => !kvs.isEmpty

/-- Python iteration `for x in j`: a list yields its elements, a dict its keys,
a string its characters; numbers, booleans and `None` raise `TypeError`. -/
def pyIter : Json → Option (List Json)
  | .arr xs => some xs
  | .obj kvs => some (kvs.map (fun kv => Json.str kv.1))
  | .str s => some (s.toList.map (fun c => Json.str (String.singleton c)))
  | _ => none

/-- Python `j.get(k, dflt)`: only dicts have `.get` (`AttributeError`
otherwise); on a dict it returns the value or the default, never raising. -/
def dictGet : Json → String → Json → Option Json
  | .obj kvs, k, dflt => some ((lookupKey kvs k).getD dflt)
  | _, _, _ => none

/-- A numeric operand for Python's `/ 1000`: ints and floats are rationals,
`bool` is an int subclass (`True` is 1, `False` is 0); anything else raises
`TypeError`. -/
def asNum : Json → Option ℚ
  | .num q => some q
  | .bool true => some 1
  | .bool false => some 0
  | _ => none

end Json

/-- Rendering of a rational the way Python prints a JSON number: integers
without a fractional part, other values by their (here: exact rational)
notation.  The claims only ever interpolate string contents, so the
non-integer branch is never exercised by a theorem. -/
def numStr (q : ℚ) : String :=
  if q.den = 1 then toString q.num else toString q

mutual

/-- Python `repr` of a JSON value, used for elements nested inside a list or
dict that is interpolated into an f-string. -/
def pyRepr : Json → String
  | .null => "None"
  | .bool true => "True"
  | .bool false => "False"
  | .num q => numStr q
  | .str s => "'" ++ s ++ "'"
  | .arr xs => "[" ++ pyReprList xs ++ "]"
  | .obj kvs => "\x7b" ++ pyReprObj kvs ++ "\x7d"

def pyReprList : List Json → String
  | [] => ""
  | [x] => pyRepr x
  | x :: xs => pyRepr x ++ ", " ++ pyReprList xs

def pyReprObj : List (String × Json) → String
  | [] => ""
  | [p] => "'" ++ p.1 ++ "': " ++ pyRepr p.2
  | p :: ps => "'" ++ p.1 ++ "': " ++ pyRepr p.2 ++ ", " ++ pyReprObj ps

end

/-- Python `str` of a JSON value, as interpolated by an f-string: strings
appear verbatim, containers via `repr` of their elements. -/
def pyStr : Json → String
  | .str s => s
  | .null => "None"
  | .bool true => "True"
  | .bool false => "False"
  | .num q => numStr q
  | .arr xs => "[" ++ pyReprList xs ++ "]"
  | .obj kvs => "\x7b" ++ pyReprObj kvs ++ "\x7d"

/-- One pandas row: an ordered association list of column name / cell value.
`Json.null` stands for a null (None/NaN) cell. -/
abbrev Row := List (String × Json)

/-- Column lookup `row[c]` (first occurrence); `none` models the `KeyError`
raised when the column is absent. -/
def getCol : Row → String → Option Json
  | [], _ => none
  | p :: r, c => if p.1 = c then some p.2 else getCol r c

/-- Does the row already have column `c`? -/
def hasCol : Row → String → Bool
  | [], _ => false
  | p :: r, c => p.1 = c || hasCol r c

/-- Overwrite every cell of column `c` in place. -/
def setColVal : Row → String → Json → Row
  | [], _, _ => []
  | p :: r, c, v => (if p.1 = c then (c, v) else p) :: setColVal r c v

/-- Pandas column assignment `row[c] = v`: overwrite an existing column in
place, append a fresh one at the end. -/
def setCol (r : Row) (c : String) (v : Json) : Row :=
  if hasCol r c then setColVal r c v else r ++ [(c, v)]

/-- The ordered list of a row's column names. -/
def colNames (r : Row) : List String := r.map Prod.fst

/-- An input job row as handed to the extraction passes: the job name plus the
already-fetched analytics document in `job_response_output`. -/
def mkJobRow (name : String) (doc : Json) : Row :=
  [("job_name", Json.str name), ("job_response_output", doc)]

/-
Transcript assembler: `analytics_call_transcript` (lines 49-74).

The function is called on a one-row frame, so `for i in
row["job_response_output"]` runs its body once, with `i` bound to the
attached document.  The body inside the `try` is:
    transcript_dict = i.get("Transcript", {})
    if transcript_dict:
        content_list = [d.get("Content", "") for d in transcript_dict]
        transcript = [f"SPEAKERS[i mod 2]: text" for i, text in enumerate(content_list)]
    row["transcript"] = ", ".join(transcript)
When `transcript_dict` is falsy the local `transcript` was never bound, so the
join raises `NameError`; together with every other structural error it is
caught by the bare `except`, which sets the transcript to `None`.
-/

/-- The fixed speaker roster of `analytics_call_transcript`. -/
def speakers : List String := ["Speaker 1", "Speaker 2"]

/-- `dict_result.get("Content", "")`, interpolated into the f-string:
`AttributeError` (hence `none`) unless the element is a dict. -/
def contentItem (e : Json) : Option String :=
  match e with
  | .obj kvs => some (pyStr ((Json.lookupKey kvs "Content").getD (Json.str "")))
  | _ => none

/-- Label each extracted content with the roster speaker at its position
modulo the roster length, as the f-string comprehension does. -/
def labelContents (cs : List String) : List String :=
  cs.enum.map (fun p => speakers.getD (p.1 % speakers.length) "" ++ ": " ++ p.2)

/-- `[d.get("Content", "") for d in transcript_dict]`: iterate the value and
project each element's content, failing if the value is not iterable or an
element is not a dict. -/
def contentList (td : Json) : Option (List String) :=
  match td.pyIter with
  | none => none
  | some elems =>
    elems.foldr
      (fun e acc =>
        match contentItem e, acc with
        | some s, some ss => some (s :: ss)
        | _, _ => none)
      (some [])

/-- The body of `analytics_call_transcript` applied to the attached document:
`some` joined transcript on success, `none` for the `except` path (transcript
column set to `None`). -/
def analytics_call_transcript (doc : Json) : Option String :=
  match doc.dictGet "Transcript" (Json.obj []) with
  | none => none
  | some td =>
    if td.truthy then
      match contentList td with
      | none => none
      | some cs => some (String.intercalate ", " (labelContents cs))
    else none

/-
Summarization assembler: `analytics_call_summarization` (lines 101-135) and
its driver `summary_call_public_fnt` (lines 138-154).
-/

/-- The three summarization tag names scanned for (`key_cols`). -/
def key_cols : List String := ["IssuesDetected", "OutcomesDetected", "ActionItemsDetected"]

/-- Scan of one utterance entry: walk `dict_result.keys()` in order and for
every key among `key_cols` record the key and `dict_result["Content"]`
(`KeyError` if absent).  `none` unless the entry is a dict. -/
def scanKeys (kvs : List (String × Json)) : List (String × Json) → Option (List String × List Json)
  | [] => some ([], [])
  | (k, _) :: rest =>
    if k ∈ key_cols then
      match Json.lookupKey kvs "Content" with
      | none => none
      | some c =>
        match scanKeys kvs rest with
        | none => none
        | some (ks, cs) => some (k :: ks, c :: cs)
    else scanKeys kvs rest

/-- `keys = dict_result.keys()` requires a dict (`AttributeError` otherwise). -/
def scanEntry : Json → Option (List String × List Json)
  | .obj kvs => scanKeys kvs kvs
  | _ => none

/-- Scan every utterance entry in order, concatenating the recorded tag names
and contents. -/
def scanList : List Json → Option (List String × List Json)
  | [] => some ([], [])
  | e :: es =>
    match scanEntry e with
    | none => none
    | some (ks, cs) =>
      match scanList es with
      | none => none
      | some (ks2, cs2) => some (ks ++ ks2, cs ++ cs2)

/-- `transcript = i["Transcript"]` followed by iterating it: the full scan of
the attached document producing `key_list` and `content_list`. -/
def scanDoc (doc : Json) : Option (List String × List Json) :=
  match doc.index "Transcript" with
  | none => none
  | some tr =>
    match tr.pyIter with
    | none => none
    | some elems => scanList elems

/-- `data = {name: [] for name in key_list}`: one empty bucket per distinct
tag name, in first-occurrence order. -/
def initData (ks : List String) : List (String × List Json) :=
  ks.foldl (fun d k => if d.any (fun p => p.1 = k) then d else d ++ [(k, [])]) []

/-- `data[k].append(v)` — appends to the bucket named `k` (no-op if the name
is absent, which the call sites never exercise). -/
def appendData (d : List (String × List Json)) (k : String) (v : Json) : List (String × List Json) :=
  d.map (fun p => if p.1 = k then (p.1, p.2 ++ [v]) else p)

/-- `for i, val in enumerate(content_list): data[key_list[i % len(key_list)]].append(val)`. -/
def buildGo (ks : List String) (d : List (String × List Json)) (i : Nat) :
    List Json → List (String × List Json)
  | [] => d
  | v :: vs => buildGo ks (appendData d (ks.getD (i % ks.length) "") v) (i + 1) vs

/-- The bucket dictionary built from the scanned tag names and contents. -/
def buildData (ks : List String) (cs : List Json) : List (String × List Json) :=
  buildGo ks (initData ks) 0 cs

/-- `pd.DataFrame(data)`: succeeds with the column names and the row-major
cell lists when all buckets have equal length, raises `ValueError` (here
`none`) otherwise. -/
def dfFromData (d : List (String × List Json)) : Option (List String × List (List Json)) :=
  match d with
  | [] => some ([], [])
  | (_, v) :: rest =>
    if rest.all (fun p => p.2.length = v.length) then
      some (d.map Prod.fst,
        (List.range v.length).map (fun i => d.map (fun p => p.2.getD i Json.null)))
    else none

/-- `for col in key_cols: if col not in df_summary.columns: df_summary[col] = None`:
append each missing tag column, null in every existing row. -/
def fillCols (f : List String × List (List Json)) : List String → List String × List (List Json)
  | [] => f
  | c :: rest =>
    if c ∈ f.1 then fillCols f rest
    else fillCols (f.1 ++ [c], f.2.map (fun row => row ++ [Json.null])) rest

/-- The `df_summary` frame right after the try/except of
`analytics_call_summarization`: the `except` paths (any scan failure, or the
`ValueError` of `pd.DataFrame` on uneven buckets) produce the empty frame with
the three tag columns, the no-tags path leaves the initial empty frame, and
the success path is the frame built from the buckets. -/
def summaryDf0 (r : Row) : List String × List (List Json) :=
  match getCol r "job_response_output" with
  | none => (key_cols, [])
  | some doc =>
    match scanDoc doc with
    | none => (key_cols, [])
    | some (ks, cs) =>
      if ks = [] then ([], [])
      else
        match dfFromData (buildData ks cs) with
        | none => (key_cols, [])
        | some f => f

/-- The `df_summary` frame after the fill loop. -/
def summaryFrame (r : Row) : List String × List (List Json) :=
  fillCols (summaryDf0 r) key_cols

/-- A copy of the row with every cell nulled: the values pandas aligns in for
the input row's columns at the extra index labels of a taller summary frame. -/
def nullRow (r : Row) : Row := r.map (fun p => (p.1, Json.null))

/-- `row.index = [0]; pd.concat([row, df_summary], axis=1)`: the outer join on
the index keeps the input row's cells at index 0 and nulls them at indices
1..m-1 of an m-row summary frame; a 0-row frame contributes null cells for its
columns at index 0. -/
def analytics_call_summarization (r : Row) : List Row :=
  let fr := summaryFrame r
  match fr.2 with
  | [] => [r ++ fr.1.map (fun c => (c, Json.null))]
  | rows =>
    rows.enum.map (fun p => (if p.1 = 0 then r else nullRow r) ++ fr.1.zip p.2)

/-- `summary_call_public_fnt`: apply the assembler to each row in order and
concatenate the per-row frames (axis 0). -/
def summary_call_public_fnt (t : List Row) : List Row :=
  (t.map analytics_call_summarization).flatten

/-
Characteristics assembler: `parse_call_analytics_output` (lines 157-254).

Applied via `df.apply(parse_call_analytics_output, axis=1)`, so each call sees
one row as a Series: `df["job_response_output"]` is the attached document
itself (`KeyError`, hence the except path, when the column is absent).  Each
of the twelve fields is one `try` block that walks a fixed key/index path from
the document, applies its projection (`/ 1000`, the `Score` comprehension, or
none), and assigns the column; the bare `except` assigns `None` instead.
-/

/-- One traversal step of a fixed extraction path. -/
inductive Step where
  | key (k : String)
  | pos (n : Nat)
deriving DecidableEq, Repr

/-- Walk a document along a fixed path of subscripts, failing on the first
missing key, wrong type or out-of-range index. -/
def walk : Json → List Step → Option Json
  | j, [] => some j
  | j, .key k :: rest =>
    match j.index k with
    | none => none
    | some j2 => walk j2 rest
  | j, .pos n :: rest =>
    match j.atIdx n with
    | none => none
    | some j2 => walk j2 rest

/-- The twelve characteristic fields, in the order their `try` blocks appear
in `parse_call_analytics_output`. -/
inductive CharField where
  | osc | osa | ssa | ssc | ntt | ita | itc | tsa | tsc | tta | ttc | mc
deriving DecidableEq, Repr

/-- The output column name of each characteristic field (the source's
spellings, including `interupted_...`). -/
def charName : CharField → String
  | .osc => "overall_sentiment_customer"
  | .osa => "overall_sentiment_agent"
  | .ssa => "sentiment_scores_agent_per_quarter"
  | .ssc => "sentiment_scores_customer_per_quarter"
  | .ntt => "non_talk_time_sec"
  | .ita => "interupted_time_agent_sec"
  | .itc => "interupted_time_customer_sec"
  | .tsa => "talk_speed_words_per_min_agent"
  | .tsc => "talk_speed_words_per_min_customer"
  | .tta => "talk_time_agent_sec"
  | .ttc => "talk_time_customer_sec"
  | .mc => "matched_categories"

/-- The fixed subscript path of each characteristic field. -/
def charPath : CharField → List Step
  | .osc => [.key "ConversationCharacteristics", .key "Sentiment", .key "OverallSentiment", .key "CUSTOMER"]
  | .osa => [.key "ConversationCharacteristics", .key "Sentiment", .key "OverallSentiment", .key "AGENT"]
  | .ssa => [.key "ConversationCharacteristics", .key "Sentiment", .key "SentimentByPeriod", .key "QUARTER", .key "AGENT"]
  | .ssc => [.key "ConversationCharacteristics", .key "Sentiment", .key "SentimentByPeriod", .key "QUARTER", .key "CUSTOMER"]
  | .ntt => [.key "ConversationCharacteristics", .key "NonTalkTime", .key "TotalTimeMillis"]
  | .ita => [.key "ConversationCharacteristics", .key "Interruptions", .key "InterruptionsByInterrupter", .key "AGENT", .pos 0, .key "DurationMillis"]
  | .itc => [.key "ConversationCharacteristics", .key "Interruptions", .key "InterruptionsByInterrupter", .key "CUSTOMER", .pos 0, .key "DurationMillis"]
  | .tsa => [.key "ConversationCharacteristics", .key "TalkSpeed", .key "DetailsByParticipant", .key "AGENT", .key "AverageWordsPerMinute"]
  | .tsc => [.key "ConversationCharacteristics", .key "TalkSpeed", .key "DetailsByParticipant", .key "CUSTOMER", .key "AverageWordsPerMinute"]
  | .tta => [.key "ConversationCharacteristics", .key "TalkTime", .key "DetailsByParticipant", .key "AGENT", .key "TotalTimeMillis"]
  | .ttc => [.key "ConversationCharacteristics", .key "TalkTime", .key "DetailsByParticipant", .key "CUSTOMER", .key "TotalTimeMillis"]
  | .mc => [.key "Categories", .key "MatchedCategories"]

/-- `( ... ) / 1000`: millisecond value to seconds; `TypeError` (hence `none`)
on a non-numeric operand. -/
def divMs (j : Json) : Option Json :=
  match j.asNum with
  | none => none
  | some q => some (Json.num (q / 1000))

/-- `[d["Score"] for d in x]`: iterate the traversed value, subscripting each
element with `"Score"`; the resulting list is stored in the cell. -/
def scoreList (j : Json) : Option Json :=
  match j.pyIter with
  | none => none
  | some elems =>
    (elems.foldr
      (fun e acc =>
        match e.index "Score", acc with
        | some s, some ss => some (s :: ss)
        | _, _ => none)
      (some ([] : List Json))).map Json.arr

/-- The projection each field applies to the value found at its path: the
millisecond fields divide by 1000, the per-quarter fields run the `Score`
comprehension, the rest store the raw value. -/
def charProj : CharField → Json → Option Json
  | .ntt => divMs
  | .ita => divMs
  | .itc => divMs
  | .tta => divMs
  | .ttc => divMs
  | .ssa => scoreList
  | .ssc => scoreList
  | _ => fun j => some j

/-- One field's whole `try` block as a function of the row's
`job_response_output` cell lookup: `None` (null) on the except path. -/
def charExtract (f : CharField) (od : Option Json) : Json :=
  match od with
  | none => Json.null
  | some doc =>
    match walk doc (charPath f) with
    | none => Json.null
    | some v =>
      match charProj f v with
      | none => Json.null
      | some w => w

/-- All twelve fields in source order. -/
def charFields : List CharField :=
  [.osc, .osa, .ssa, .ssc, .ntt, .ita, .itc, .tsa, .tsc, .tta, .ttc, .mc]

/-
The three per-row passes share one shape: a sequence of column assignments
`row[c] = f(row["job_response_output"])`, which `colSpecApply` folds over.
-/

/-- One column assignment computed from the `job_response_output` cell. -/
def colStep (r : Row) (p : String × (Option Json → Json)) : Row :=
  setCol r p.1 (p.2 (getCol r "job_response_output"))

/-- A sequence of such column assignments, applied left to right. -/
def colSpecApply (specs : List (String × (Option Json → Json))) (r : Row) : Row :=
  specs.foldl colStep r

/-- The `transcript` column value: null when the column lookup raises
(`KeyError`) or the assembler's except path runs, the joined string otherwise. -/
def transcriptVal (od : Option Json) : Json :=
  match od with
  | none => Json.null
  | some doc =>
    match analytics_call_transcript doc with
    | none => Json.null
    | some s => Json.str s

/-- `transcript_call_public_fnt`: apply `analytics_call_transcript` to every
row (the per-row try/except of the driver never fires, since the assembler
catches everything itself). -/
def transcript_call_public_fnt (t : List Row) : List Row :=
  t.map (colSpecApply [("transcript", transcriptVal)])

/-- The twelve column assignments of `parse_call_analytics_output`. -/
def charSpecs : List (String × (Option Json → Json)) :=
  charFields.map (fun f => (charName f, charExtract f))

/-- `parse_call_analytics_output` on one row. -/
def parse_call_analytics_output (r : Row) : Row :=
  colSpecApply charSpecs r

/-- `df.apply(parse_call_analytics_output, axis=1)`. -/
def parse_pass (t : List Row) : List Row :=
  t.map parse_call_analytics_output

/-- Steps 2-4 of `main_analytics_function` — the extraction pipeline over rows
whose analytics documents are already fetched and attached (step 1 is the
network retrieval, an external collaborator). -/
def extraction_pipeline (t : List Row) : List Row :=
  parse_pass (summary_call_public_fnt (transcript_call_public_fnt t))

/-
Concrete documents used by the closed theorems.
-/

/-- The document of the C5 example: three utterances "hi", "hello", "bye". -/
def mkTranscriptDoc (cs : List String) : Json :=
  Json.obj [("Transcript", Json.arr (cs.map (fun c => Json.obj [("Content", Json.str c)])))]

/-- A document whose two utterance entries both carry an `IssuesDetected`
tag: its summary frame has two rows. -/
def docTwoIssues : Json := Json.obj [("Transcript", Json.arr [
  Json.obj [("IssuesDetected", Json.arr []), ("Content", Json.str "a")],
  Json.obj [("IssuesDetected", Json.arr []), ("Content", Json.str "b")]])]

/-- A document with two `IssuesDetected` contents and one `OutcomesDetected`
content: its per-tag counts are uneven. -/
def docUneven : Json := Json.obj [("Transcript", Json.arr [
  Json.obj [("IssuesDetected", Json.arr []), ("Content", Json.str "a")],
  Json.obj [("IssuesDetected", Json.arr []), ("Content", Json.str "b")],
  Json.obj [("OutcomesDetected", Json.arr []), ("Content", Json.str "c")]])]

/-- A document with `IssuesDetected` contents at scan positions 0 and 3 and
`OutcomesDetected` contents at positions 1 and 2. -/
def docInterleaved : Json := Json.obj [("Transcript", Json.arr [
  Json.obj [("IssuesDetected", Json.arr []), ("Content", Json.str "c0")],
  Json.obj [("OutcomesDetected", Json.arr []), ("Content", Json.str "c1")],
  Json.obj [("OutcomesDetected", Json.arr []), ("Content", Json.str "c2")],
  Json.obj [("IssuesDetected", Json.arr []), ("Content", Json.str "c3")]])]

/-- A bare-mapping document carrying one utterance with content "hi". -/
def docBare : Json := Json.obj [("Transcript", Json.arr [Json.obj [("Content", Json.str "hi")]])]

/-- The same document wrapped in a one-element list — the list shape of the
spec's open question. -/
def docListShaped : Json := Json.arr [docBare]

/-- A document with overall sentiments and a 4500 ms non-talk time, plus
unrelated extra sections. -/
def docSentiment : Json := Json.obj [("ConversationCharacteristics", Json.obj [
  ("Sentiment", Json.obj [("OverallSentiment",
    Json.obj [("CUSTOMER", Json.str "POSITIVE"), ("AGENT", Json.str "NEUTRAL")])]),
  ("NonTalkTime", Json.obj [("TotalTimeMillis", Json.num 4500)])])]

/-- A document carrying only the non-talk-time subtree of `docSentiment`. -/
def docNonTalkOnly : Json := Json.obj [("ConversationCharacteristics", Json.obj [
  ("NonTalkTime", Json.obj [("TotalTimeMillis", Json.num 4500)])])]

/-- The full fixed column set of a pipeline output row: the two input columns,
the transcript, the three summarization columns, the eleven characteristic
columns and `matched_categories`. -/
def fullCols : List String :=
  ["job_name", "job_response_output", "transcript"] ++ key_cols ++ charFields.map charName

/-- The lookup of a tag's bucket in the summarization `data` dictionary. -/
def bucketOf : List (String × List Json) → String → Option (List Json)
  | [], _ => none
  | p :: d, t => if p.1 = t then some p.2 else bucketOf d t

/-- All cells of column `c` in `r` hold the value `v` (vacuously true when the
column is absent). -/
def AllEqAt (c : String) (v : Json) (r : Row) : Prop :=
  ∀ p ∈ r, p.1 = c → p.2 = v

/-
Correctness of the JSON equality test, giving decidable equality.
-/

mutual

theorem jsonBeq_iff : ∀ (a b : Json), jsonBeq a b = true ↔ a = b
  | .null, .null => by simp [jsonBeq]
  | .null, .bool _ => by simp [jsonBeq]
  | .null, .num _ => by simp [jsonBeq]
  | .null, .str _ => by simp [jsonBeq]
  | .null, .arr _ => by simp [jsonBeq]
  | .null, .obj _ => by simp [jsonBeq]
  | .bool _, .null => by simp [jsonBeq]
  | .bool _, .bool _ => by simp [jsonBeq]
  | .bool _, .num _ => by simp [jsonBeq]
  | .bool _, .str _ => by simp [jsonBeq]
  | .bool _, .arr _ => by simp [jsonBeq]
  | .bool _, .obj _ => by simp [jsonBeq]
  | .num _, .null => by simp [jsonBeq]
  | .num _, .bool _ => by simp [jsonBeq]
  | .num _, .num _ => by simp [jsonBeq]
  | .num _, .str _ => by simp [jsonBeq]
  | .num _, .arr _ => by simp [jsonBeq]
  | .num _, .obj _ => by simp [jsonBeq]
  | .str _, .null => by simp [jsonBeq]
  | .str _, .bool _ => by simp [jsonBeq]
  | .str _, .num _ => by simp [jsonBeq]
  | .str _, .str _ => by simp [jsonBeq]
  | .str _, .arr _ => by simp [jsonBeq]
  | .str _, .obj _ => by simp [jsonBeq]
  | .arr _, .null => by simp [jsonBeq]
  | .arr _, .bool _ => by simp [jsonBeq]
  | .arr _, .num _ => by simp [jsonBeq]
  | .arr _, .str _ => by simp [jsonBeq]
  | .arr xs, .arr ys => by simp [jsonBeq, jsonBeqList_iff xs ys]
  | .arr _, .obj _ => by simp [jsonBeq]
  | .obj _, .null => by simp [jsonBeq]
  | .obj _, .bool _ => by simp [jsonBeq]
  | .obj _, .num _ => by simp [jsonBeq]
  | .obj _, .str _ => by simp [jsonBeq]
  | .obj _, .arr _ => by simp [jsonBeq]
  | .obj a, .obj b => by simp [jsonBeq, jsonBeqObj_iff a b]

theorem jsonBeqList_iff : ∀ (xs ys : List Json), jsonBeqList xs ys = true ↔ xs = ys
  | [], [] => by simp [jsonBeqList]
  | [], _ :: _ => by simp [jsonBeqList]
  | _ :: _, [] => by simp [jsonBeqList]
  | x :: xs, y :: ys => by
      simp [jsonBeqList, jsonBeq_iff x y, jsonBeqList_iff xs ys]

theorem jsonBeqObj_iff :
    ∀ (ps qs : List (String × Json)), jsonBeqObj ps qs = true ↔ ps = qs
  | [], [] => by simp [jsonBeqObj]
  | [], _ :: _ => by simp [jsonBeqObj]
  | _ :: _, [] => by simp [jsonBeqObj]
  | p :: ps, q :: qs => by
      simp [jsonBeqObj, jsonBeq_iff p.2 q.2, jsonBeqObj_iff ps qs, Prod.ext_iff]

end

instance : DecidableEq Json := fun a b => decidable_of_iff _ (jsonBeq_iff a b)

/-
Lemmas about rows and column assignment.
-/

theorem getCol_append (r1 r2 : Row) (c : String) :
    getCol (r1 ++ r2) c = match getCol r1 c with | some v => some v | none => getCol r2 c := by
  induction r1 with
  | nil => simp [getCol]
  | cons p r ih =>
    by_cases h : p.1 = c <;> simp [getCol, h, ih]

theorem hasCol_iff_mem (r : Row) (c : String) : hasCol r c = true ↔ c ∈ colNames r := by
  induction r with
  | nil => simp [hasCol, colNames]
  | cons p r ih =>
    simp only [hasCol, Bool.or_eq_true, decide_eq_true_eq, colNames, List.map_cons,
      List.mem_cons, ih]
    exact or_congr eq_comm Iff.rfl

theorem getCol_eq_none_of_not_hasCol (r : Row) (c : String) (h : hasCol r c = false) :
    getCol r c = none := by
  induction r with
  | nil => rfl
  | cons p r ih =>
    simp only [hasCol, Bool.or_eq_false_iff, decide_eq_false_iff_not] at h
    simp [getCol, h.1, ih h.2]

theorem colNames_setColVal (r : Row) (c : String) (v : Json) :
    colNames (setColVal r c v) = colNames r := by
  induction r with
  | nil => rfl
  | cons p r ih =>
    by_cases h : p.1 = c <;> simp [setColVal, colNames, h] <;>
      simpa [colNames] using ih

theorem getCol_setColVal_self (r : Row) (c : String) (v : Json)
    (h : hasCol r c = true) : getCol (setColVal r c v) c = some v := by
  induction r with
  | nil => simp [hasCol] at h
  | cons p r ih =>
    by_cases hp : p.1 = c
    · simp [setColVal, hp, getCol]
    · simp only [hasCol, Bool.or_eq_true, decide_eq_true_eq, hp, false_or] at h
      simp [setColVal, hp, getCol, ih h]

theorem getCol_setColVal_ne (r : Row) (c c2 : String) (v : Json) (h : c2 ≠ c) :
    getCol (setColVal r c v) c2 = getCol r c2 := by
  induction r with
  | nil => rfl
  | cons p r ih =>
    by_cases hp : p.1 = c
    · simp [setColVal, hp, getCol, ih, Ne.symm h]
    · by_cases hp2 : p.1 = c2 <;> simp [setColVal, hp, getCol, hp2, ih, h]

theorem getCol_setCol_self (r : Row) (c : String) (v : Json) :
    getCol (setCol r c v) c = some v := by
  unfold setCol
  cases h : hasCol r c with
  | true => simpa using getCol_setColVal_self r c v h
  | false =>
    simp only [h, Bool.false_eq_true, if_false]
    rw [getCol_append, getCol_eq_none_of_not_hasCol r c h]
    simp [getCol]

theorem getCol_setCol_ne (r : Row) (c c2 : String) (v : Json) (h : c2 ≠ c) :
    getCol (setCol r c v) c2 = getCol r c2 := by
  unfold setCol
  cases hh : hasCol r c with
  | true => simpa using getCol_setColVal_ne r c c2 v h
  | false =>
    simp only [hh, Bool.false_eq_true, if_false]
    rw [getCol_append]
    cases hg : getCol r c2 with
    | some w => simp
    | none => simp [getCol, Ne.symm h]

theorem colNames_append (r1 r2 : Row) : colNames (r1 ++ r2) = colNames r1 ++ colNames r2 := by
  simp [colNames]

theorem colNames_setCol (r : Row) (c : String) (v : Json) :
    colNames (setCol r c v) = if hasCol r c then colNames r else colNames r ++ [c] := by
  unfold setCol
  cases h : hasCol r c with
  | true => simp [colNames_setColVal]
  | false => simp [colNames_append, colNames]

theorem mem_colNames_setCol (r : Row) (c c2 : String) (v : Json) :
    c2 ∈ colNames (setCol r c v) ↔ c2 ∈ colNames r ∨ c2 = c := by
  rw [colNames_setCol]
  cases h : hasCol r c with
  | true =>
    simp only [if_true]
    constructor
    · exact Or.inl
    · rintro (hm | rfl)
      · exact hm
      · exact (hasCol_iff_mem r c2).mp h
  | false => simp

theorem hasCol_setCol (r : Row) (c c2 : String) (v : Json) :
    hasCol (setCol r c v) c2 = (hasCol r c2 || c2 == c) := by
  rw [Bool.eq_iff_iff]
  simp [hasCol_iff_mem, mem_colNames_setCol]

theorem mem_setColVal (r : Row) (c : String) (v : Json) (p : String × Json)
    (hp : p ∈ setColVal r c v) : p = (c, v) ∨ (p ∈ r ∧ p.1 ≠ c) := by
  induction r with
  | nil => simp [setColVal] at hp
  | cons q rr ih =>
    simp only [setColVal, List.mem_cons] at hp
    rcases hp with hp | hp
    · by_cases hq : q.1 = c
      · left
        rw [if_pos hq] at hp
        exact hp
      · right
        rw [if_neg hq] at hp
        exact ⟨by rw [hp]; exact List.mem_cons_self q rr, by rw [hp]; exact hq⟩
    · rcases ih hp with h1 | h2
      · exact Or.inl h1
      · exact Or.inr ⟨List.mem_cons_of_mem q h2.1, h2.2⟩

theorem allEqAt_setCol_self (r : Row) (c : String) (v : Json) :
    AllEqAt c v (setCol r c v) := by
  intro p hp hpc
  unfold setCol at hp
  cases h : hasCol r c with
  | true =>
    rw [h] at hp
    simp only [if_true] at hp
    rcases mem_setColVal r c v p hp with h1 | h2
    · rw [h1]
    · exact absurd hpc h2.2
  | false =>
    rw [h] at hp
    simp only [Bool.false_eq_true, if_false, List.mem_append, List.mem_singleton] at hp
    rcases hp with hp | hp
    · exfalso
      have hmem : c ∈ colNames r := by
        rw [← hpc]
        exact List.mem_map_of_mem Prod.fst hp
      rw [← hasCol_iff_mem] at hmem
      rw [hmem] at h
      cases h
    · rw [hp]

theorem allEqAt_setCol_other (r : Row) (c c2 : String) (v w : Json) (hne : c2 ≠ c)
    (h : AllEqAt c v r) : AllEqAt c v (setCol r c2 w) := by
  intro p hp hpc
  unfold setCol at hp
  cases hh : hasCol r c2 with
  | true =>
    rw [hh] at hp
    simp only [if_true] at hp
    rcases mem_setColVal r c2 w p hp with h1 | h2
    · rw [h1] at hpc
      exact absurd hpc hne
    · exact h p h2.1 hpc
  | false =>
    rw [hh] at hp
    simp only [Bool.false_eq_true, if_false, List.mem_append, List.mem_singleton] at hp
    rcases hp with hp | hp
    · exact h p hp hpc
    · rw [hp] at hpc
      exact absurd hpc hne

theorem setColVal_eq_self (r : Row) (c : String) (v : Json) (h : AllEqAt c v r) :
    setColVal r c v = r := by
  induction r with
  | nil => rfl
  | cons p rr ih =>
    simp only [setColVal]
    by_cases hp : p.1 = c
    · rw [if_pos hp]
      have hv := h p (List.mem_cons_self p rr) hp
      rw [ih (fun q hq hqc => h q (List.mem_cons_of_mem p hq) hqc)]
      rw [← hp, ← hv]
    · rw [if_neg hp, ih (fun q hq hqc => h q (List.mem_cons_of_mem p hq) hqc)]

theorem setCol_eq_self (r : Row) (c : String) (v : Json) (hc : hasCol r c = true)
    (h : AllEqAt c v r) : setCol r c v = r := by
  unfold setCol
  rw [hc, if_pos rfl, setColVal_eq_self r c v h]

/-
Lemmas about sequences of column assignments (`colSpecApply`).
-/

theorem getCol_colSpecApply_not_mem (specs : List (String × (Option Json → Json)))
    (c : String) (h : c ∉ specs.map Prod.fst) (r : Row) :
    getCol (colSpecApply specs r) c = getCol r c := by
  induction specs generalizing r with
  | nil => rfl
  | cons p rest ih =>
    simp only [List.map_cons, List.mem_cons] at h
    push_neg at h
    simp only [colSpecApply, List.foldl_cons]
    rw [show List.foldl colStep (colStep r p) rest = colSpecApply rest (colStep r p) from rfl] at *
    rw [ih h.2, colStep, getCol_setCol_ne _ _ _ _ h.1]

theorem getCol_src_colSpecApply (specs : List (String × (Option Json → Json)))
    (hsrc : ∀ p ∈ specs, p.1 ≠ "job_response_output") (r : Row) :
    getCol (colSpecApply specs r) "job_response_output" = getCol r "job_response_output" := by
  induction specs generalizing r with
  | nil => rfl
  | cons p rest ih =>
    simp only [colSpecApply, List.foldl_cons]
    rw [show List.foldl colStep (colStep r p) rest = colSpecApply rest (colStep r p) from rfl]
    rw [ih (fun q hq => hsrc q (List.mem_cons_of_mem p hq))]
    exact getCol_setCol_ne _ _ _ _ (Ne.symm (hsrc p (List.mem_cons_self p rest)))

theorem getCol_colSpecApply_mem (specs : List (String × (Option Json → Json)))
    (hnd : (specs.map Prod.fst).Nodup)
    (hsrc : ∀ p ∈ specs, p.1 ≠ "job_response_output")
    (c : String) (f : Option Json → Json) (hmem : (c, f) ∈ specs) (r : Row) :
    getCol (colSpecApply specs r) c = some (f (getCol r "job_response_output")) := by
  induction specs generalizing r with
  | nil => cases hmem
  | cons p rest ih =>
    simp only [List.map_cons, List.nodup_cons] at hnd
    simp only [colSpecApply, List.foldl_cons]
    rw [show List.foldl colStep (colStep r p) rest = colSpecApply rest (colStep r p) from rfl]
    rcases List.mem_cons.mp hmem with heq | hrest
    · cases heq
      rw [getCol_colSpecApply_not_mem rest c hnd.1]
      show getCol (setCol r c (f (getCol r "job_response_output"))) c = _
      exact getCol_setCol_self _ _ _
    · have hc2 : getCol (colStep r p) "job_response_output" = getCol r "job_response_output" :=
        getCol_setCol_ne _ _ _ _ (Ne.symm (hsrc p (List.mem_cons_self p rest)))
      rw [ih hnd.2 (fun q hq => hsrc q (List.mem_cons_of_mem p hq)) hrest, hc2]

theorem hasCol_colSpecApply_mono (specs : List (String × (Option Json → Json)))
    (c : String) (r : Row) (h : hasCol r c = true) :
    hasCol (colSpecApply specs r) c = true := by
  induction specs generalizing r with
  | nil => exact h
  | cons p rest ih =>
    simp only [colSpecApply, List.foldl_cons]
    rw [show List.foldl colStep (colStep r p) rest = colSpecApply rest (colStep r p) from rfl]
    exact ih _ (by rw [colStep, hasCol_setCol, h, Bool.true_or])

theorem allEqAt_colSpecApply (specs : List (String × (Option Json → Json)))
    (c : String) (v : Json) (hnotin : c ∉ specs.map Prod.fst) (r : Row)
    (h : AllEqAt c v r) : AllEqAt c v (colSpecApply specs r) := by
  induction specs generalizing r with
  | nil => exact h
  | cons p rest ih =>
    simp only [List.map_cons, List.mem_cons] at hnotin
    push_neg at hnotin
    simp only [colSpecApply, List.foldl_cons]
    rw [show List.foldl colStep (colStep r p) rest = colSpecApply rest (colStep r p) from rfl]
    exact ih hnotin.2 _ (allEqAt_setCol_other r c p.1 v _ (Ne.symm hnotin.1) h)

theorem colSpecApply_idem (specs : List (String × (Option Json → Json)))
    (hnd : (specs.map Prod.fst).Nodup)
    (hsrc : ∀ p ∈ specs, p.1 ≠ "job_response_output") (r : Row) :
    colSpecApply specs (colSpecApply specs r) = colSpecApply specs r := by
  induction specs generalizing r with
  | nil => rfl
  | cons p rest ih =>
    simp only [List.map_cons, List.nodup_cons] at hnd
    have hsrc1 : p.1 ≠ "job_response_output" := hsrc p (List.mem_cons_self p rest)
    have hsrcr : ∀ q ∈ rest, q.1 ≠ "job_response_output" :=
      fun q hq => hsrc q (List.mem_cons_of_mem p hq)
    have unfold1 : ∀ r2 : Row, colSpecApply (p :: rest) r2 = colSpecApply rest (colStep r2 p) :=
      fun _ => rfl
    rw [unfold1 r, unfold1 (colSpecApply rest (colStep r p))]
    have hval : getCol (colSpecApply rest (colStep r p)) "job_response_output"
        = getCol r "job_response_output" := by
      rw [getCol_src_colSpecApply rest hsrcr, colStep,
        getCol_setCol_ne _ _ _ _ (Ne.symm hsrc1)]
    have hstep : colStep (colSpecApply rest (colStep r p)) p
        = colSpecApply rest (colStep r p) := by
      show setCol _ p.1 (p.2 (getCol _ "job_response_output")) = _
      rw [hval]
      apply setCol_eq_self
      · exact hasCol_colSpecApply_mono rest p.1 _ (by rw [colStep, hasCol_setCol]; simp)
      · exact allEqAt_colSpecApply rest p.1 _ hnd.1 _ (allEqAt_setCol_self r p.1 _)
    rw [hstep]
    exact ih hnd.2 hsrcr (colStep r p)

theorem mem_colNames_colSpecApply (specs : List (String × (Option Json → Json)))
    (c : String) (r : Row) :
    c ∈ colNames (colSpecApply specs r) ↔ c ∈ colNames r ∨ c ∈ specs.map Prod.fst := by
  induction specs generalizing r with
  | nil => simp [colSpecApply]
  | cons p rest ih =>
    have unfold1 : colSpecApply (p :: rest) r = colSpecApply rest (colStep r p) := rfl
    rw [unfold1, ih, colStep, mem_colNames_setCol]
    simp only [List.map_cons, List.mem_cons]
    tauto

theorem colNames_nullRow (r : Row) : colNames (nullRow r) = colNames r := by
  simp [nullRow, colNames, List.map_map]

theorem dfFromData_cols (d : List (String × List Json)) (cols : List String)
    (rows : List (List Json)) (h : dfFromData d = some (cols, rows)) :
    cols = d.map Prod.fst := by
  cases d with
  | nil =>
    simp only [dfFromData, Option.some.injEq, Prod.mk.injEq] at h
    simp [← h.1]
  | cons p rest =>
    simp only [dfFromData] at h
    split at h
    · simp only [Option.some.injEq, Prod.mk.injEq] at h
      exact h.1.symm
    · cases h

theorem dfFromData_row_length (d : List (String × List Json)) (cols : List String)
    (rows : List (List Json)) (h : dfFromData d = some (cols, rows)) :
    ∀ row ∈ rows, row.length = cols.length := by
  cases d with
  | nil =>
    simp only [dfFromData, Option.some.injEq, Prod.mk.injEq] at h
    rw [← h.2]
    simp
  | cons p rest =>
    simp only [dfFromData] at h
    split at h
    · simp only [Option.some.injEq, Prod.mk.injEq] at h
      intro row hrow
      rw [← h.2] at hrow
      obtain ⟨i, _, rfl⟩ := List.mem_map.mp hrow
      rw [← h.1]
      simp
    · cases h

theorem fillCols_row_length (l : List String) (f : List String × List (List Json))
    (hf : ∀ row ∈ f.2, row.length = f.1.length) :
    ∀ row ∈ (fillCols f l).2, row.length = (fillCols f l).1.length := by
  induction l generalizing f with
  | nil => exact hf
  | cons c rest ih =>
    by_cases h : c ∈ f.1
    · rw [show fillCols f (c :: rest) = fillCols f rest by simp [fillCols, h]]
      exact ih f hf
    · rw [show fillCols f (c :: rest)
          = fillCols (f.1 ++ [c], f.2.map (fun row => row ++ [Json.null])) rest by
        simp [fillCols, h]]
      apply ih
      intro row hrow
      obtain ⟨row0, hrow0, rfl⟩ := List.mem_map.mp hrow
      simp [hf row0 hrow0]

theorem summaryDf0_row_length (r : Row) :
    ∀ row ∈ (summaryDf0 r).2, row.length = (summaryDf0 r).1.length := by
  unfold summaryDf0
  split
  · simp
  · split
    · simp
    · split
      · simp
      · split
        · simp
        · rename_i f heq
          exact dfFromData_row_length _ _ _ heq

theorem summaryFrame_row_length (r : Row) :
    ∀ row ∈ (summaryFrame r).2, row.length = (summaryFrame r).1.length := by
  unfold summaryFrame
  exact fillCols_row_length key_cols (summaryDf0 r) (summaryDf0_row_length r)

theorem mem_fillCols (l : List String) (f : List String × List (List Json)) (c : String) :
    c ∈ (fillCols f l).1 ↔ c ∈ f.1 ∨ c ∈ l := by
  induction l generalizing f with
  | nil => simp [fillCols]
  | cons c2 rest ih =>
    by_cases h : c2 ∈ f.1
    · rw [show fillCols f (c2 :: rest) = fillCols f rest by simp [fillCols, h], ih]
      constructor
      · rintro (hf | hr)
        · exact Or.inl hf
        · exact Or.inr (List.mem_cons_of_mem c2 hr)
      · rintro (hf | hcr)
        · exact Or.inl hf
        · rcases List.mem_cons.mp hcr with rfl | hr
          · exact Or.inl h
          · exact Or.inr hr
    · rw [show fillCols f (c2 :: rest)
          = fillCols (f.1 ++ [c2], f.2.map (fun row => row ++ [Json.null])) rest by
        simp [fillCols, h], ih]
      simp only [List.mem_append, List.mem_singleton, List.mem_cons]
      tauto

/-
Lemmas about the summarization scan and bucket construction.
-/

theorem scanKeys_sub (kvs : List (String × Json)) :
    ∀ (l : List (String × Json)) (ks : List String) (cs : List Json),
      scanKeys kvs l = some (ks, cs) → ∀ k ∈ ks, k ∈ key_cols := by
  intro l
  induction l with
  | nil =>
    intro ks cs h
    simp only [scanKeys, Option.some.injEq, Prod.mk.injEq] at h
    rw [← h.1]
    simp
  | cons p rest ih =>
    intro ks cs h
    obtain ⟨k0, v0⟩ := p
    by_cases hin : k0 ∈ key_cols
    · cases hc : Json.lookupKey kvs "Content" with
      | none =>
        simp only [scanKeys, if_pos hin, hc] at h
        cases h
      | some c =>
        cases hks : scanKeys kvs rest with
        | none =>
          simp only [scanKeys, if_pos hin, hc, hks] at h
          cases h
        | some pr =>
          obtain ⟨ks2, cs2⟩ := pr
          simp only [scanKeys, if_pos hin, hc, hks, Option.some.injEq, Prod.mk.injEq] at h
          rw [← h.1]
          intro k hk
          rcases List.mem_cons.mp hk with rfl | hk2
          · exact hin
          · exact ih ks2 cs2 hks k hk2
    · simp only [scanKeys, if_neg hin] at h
      exact ih ks cs h

theorem scanKeys_len (kvs : List (String × Json)) :
    ∀ (l : List (String × Json)) (ks : List String) (cs : List Json),
      scanKeys kvs l = some (ks, cs) → ks.length = cs.length := by
  intro l
  induction l with
  | nil =>
    intro ks cs h
    simp only [scanKeys, Option.some.injEq, Prod.mk.injEq] at h
    rw [← h.1, ← h.2]
    rfl
  | cons p rest ih =>
    intro ks cs h
    obtain ⟨k0, v0⟩ := p
    by_cases hin : k0 ∈ key_cols
    · cases hc : Json.lookupKey kvs "Content" with
      | none =>
        simp only [scanKeys, if_pos hin, hc] at h
        cases h
      | some c =>
        cases hks : scanKeys kvs rest with
        | none =>
          simp only [scanKeys, if_pos hin, hc, hks] at h
          cases h
        | some pr =>
          obtain ⟨ks2, cs2⟩ := pr
          simp only [scanKeys, if_pos hin, hc, hks, Option.some.injEq, Prod.mk.injEq] at h
          rw [← h.1, ← h.2]
          simp [ih ks2 cs2 hks]
    · simp only [scanKeys, if_neg hin] at h
      exact ih ks cs h

theorem scanEntry_sub (e : Json) (ks : List String) (cs : List Json)
    (h : scanEntry e = some (ks, cs)) : ∀ k ∈ ks, k ∈ key_cols := by
  cases e <;> simp only [scanEntry] at h <;> try cases h
  exact scanKeys_sub _ _ ks cs h

theorem scanEntry_len (e : Json) (ks : List String) (cs : List Json)
    (h : scanEntry e = some (ks, cs)) : ks.length = cs.length := by
  cases e <;> simp only [scanEntry] at h <;> try cases h
  exact scanKeys_len _ _ ks cs h

theorem scanList_sub (es : List Json) :
    ∀ (ks : List String) (cs : List Json),
      scanList es = some (ks, cs) → ∀ k ∈ ks, k ∈ key_cols := by
  induction es with
  | nil =>
    intro ks cs h
    simp only [scanList, Option.some.injEq, Prod.mk.injEq] at h
    rw [← h.1]
    simp
  | cons e rest ih =>
    intro ks cs h
    cases h1 : scanEntry e with
    | none =>
      simp only [scanList, h1] at h
      cases h
    | some pr1 =>
      obtain ⟨ks1, cs1⟩ := pr1
      cases h2 : scanList rest with
      | none =>
        simp only [scanList, h1, h2] at h
        cases h
      | some pr2 =>
        obtain ⟨ks2, cs2⟩ := pr2
        simp only [scanList, h1, h2, Option.some.injEq, Prod.mk.injEq] at h
        rw [← h.1]
        intro k hk
        rcases List.mem_append.mp hk with hk1 | hk2
        · exact scanEntry_sub e ks1 cs1 h1 k hk1
        · exact ih ks2 cs2 h2 k hk2

theorem scanList_len (es : List Json) :
    ∀ (ks : List String) (cs : List Json),
      scanList es = some (ks, cs) → ks.length = cs.length := by
  induction es with
  | nil =>
    intro ks cs h
    simp only [scanList, Option.some.injEq, Prod.mk.injEq] at h
    rw [← h.1, ← h.2]
    rfl
  | cons e rest ih =>
    intro ks cs h
    cases h1 : scanEntry e with
    | none =>
      simp only [scanList, h1] at h
      cases h
    | some pr1 =>
      obtain ⟨ks1, cs1⟩ := pr1
      cases h2 : scanList rest with
      | none =>
        simp only [scanList, h1, h2] at h
        cases h
      | some pr2 =>
        obtain ⟨ks2, cs2⟩ := pr2
        simp only [scanList, h1, h2, Option.some.injEq, Prod.mk.injEq] at h
        rw [← h.1, ← h.2]
        simp [scanEntry_len e ks1 cs1 h1, ih ks2 cs2 h2]

theorem scanDoc_sub (doc : Json) (ks : List String) (cs : List Json)
    (h : scanDoc doc = some (ks, cs)) : ∀ k ∈ ks, k ∈ key_cols := by
  cases h1 : doc.index "Transcript" with
  | none =>
    simp only [scanDoc, h1] at h
    cases h
  | some tr =>
    cases h2 : tr.pyIter with
    | none =>
      simp only [scanDoc, h1, h2] at h
      cases h
    | some elems =>
      simp only [scanDoc, h1, h2] at h
      exact scanList_sub elems ks cs h

theorem scanDoc_len (doc : Json) (ks : List String) (cs : List Json)
    (h : scanDoc doc = some (ks, cs)) : ks.length = cs.length := by
  cases h1 : doc.index "Transcript" with
  | none =>
    simp only [scanDoc, h1] at h
    cases h
  | some tr =>
    cases h2 : tr.pyIter with
    | none =>
      simp only [scanDoc, h1, h2] at h
      cases h
    | some elems =>
      simp only [scanDoc, h1, h2] at h
      exact scanList_len elems ks cs h

theorem bucketOf_append (d1 d2 : List (String × List Json)) (t : String) :
    bucketOf (d1 ++ d2) t
      = match bucketOf d1 t with
        | some l => some l
        | none => bucketOf d2 t := by
  induction d1 with
  | nil => simp [bucketOf]
  | cons p d ih =>
    by_cases h : p.1 = t <;> simp [bucketOf, h, ih]

theorem bucketOf_isSome_any (d : List (String × List Json)) (t : String) :
    (bucketOf d t).isSome = d.any (fun p => p.1 = t) := by
  induction d with
  | nil => simp [bucketOf]
  | cons p d ih =>
    by_cases h : p.1 = t <;> simp [bucketOf, h, ih]

theorem bucketOf_appendData (d : List (String × List Json)) (k t : String) (v : Json) :
    bucketOf (appendData d k v) t
      = if t = k then (bucketOf d t).map (fun l => l ++ [v]) else bucketOf d t := by
  induction d with
  | nil => by_cases h : t = k <;> simp [appendData, bucketOf, h]
  | cons p d ih =>
    simp only [appendData, List.map_cons] at *
    by_cases h1 : p.1 = k <;> by_cases h2 : p.1 = t
    · have ht : t = k := h2.symm.trans h1
      subst ht
      simp [bucketOf, h1, h2, ih]
    · have ht : ¬ t = k := fun hc => h2 (h1.trans hc.symm)
      have ht2 : ¬ k = t := fun hc => ht hc.symm
      simp [bucketOf, h1, h2, ht, ht2, ih]
    · have ht : ¬ t = k := fun hc => h1 (h2.trans hc)
      have ht2 : ¬ k = t := fun hc => ht hc.symm
      simp [bucketOf, h1, h2, ht, ht2, ih]
    · simp [bucketOf, h1, h2, ih]

theorem bucketOf_initData_go (t : String) :
    ∀ (ks : List String) (d : List (String × List Json)),
      bucketOf (ks.foldl (fun d2 k =>
          if d2.any (fun p => p.1 = k) then d2 else d2 ++ [(k, [])]) d) t
        = match bucketOf d t with
          | some l => some l
          | none => if t ∈ ks then some [] else none := by
  intro ks
  induction ks with
  | nil =>
    intro d
    cases hb : bucketOf d t <;> simp [hb]
  | cons k rest ih =>
    intro d
    simp only [List.foldl_cons]
    by_cases hany : d.any (fun p => p.1 = k)
    · rw [if_pos hany, ih d]
      cases hb : bucketOf d t with
      | some l => simp
      | none =>
        simp only []
        by_cases ht : t = k
        · subst ht
          exfalso
          have := bucketOf_isSome_any d t
          rw [hb] at this
          simp [hany] at this
        · simp [List.mem_cons, ht]
    · rw [if_neg hany, ih (d ++ [(k, [])])]
      rw [bucketOf_append]
      cases hb : bucketOf d t with
      | some l => simp
      | none =>
        simp only [bucketOf]
        by_cases ht : k = t
        · simp [ht, List.mem_cons]
        · have ht2 : ¬ t = k := fun hc => ht hc.symm
          simp [ht, ht2, List.mem_cons]

theorem bucketOf_initData (ks : List String) (t : String) :
    bucketOf (initData ks) t = if t ∈ ks then some [] else none := by
  rw [initData, bucketOf_initData_go t ks []]
  simp [bucketOf]

theorem bucketOf_buildGo (ks : List String) (t : String) :
    ∀ (cs : List Json) (d : List (String × List Json)) (i : Nat),
      i + cs.length ≤ ks.length →
      bucketOf (buildGo ks d i cs) t
        = match bucketOf d t with
          | none => none
          | some l => some (l ++ ((ks.drop i).zip cs).filterMap
              (fun p => if p.1 = t then some p.2 else none)) := by
  intro cs
  induction cs with
  | nil =>
    intro d i h1
    cases hb : bucketOf d t <;> simp [buildGo, hb]
  | cons v vs ih =>
    intro d i h1
    have hi : i < ks.length := by
      simp only [List.length_cons] at h1
      omega
    have hmod : i % ks.length = i := Nat.mod_eq_of_lt hi
    have hkey : ks.getD i "" = ks[i] := List.getD_eq_getElem ks "" hi
    show bucketOf (buildGo ks (appendData d (ks.getD (i % ks.length) "") v) (i + 1) vs) t = _
    rw [hmod, hkey]
    rw [ih (appendData d ks[i] v) (i + 1) (by simp only [List.length_cons] at h1; omega)]
    rw [bucketOf_appendData]
    rw [List.drop_eq_getElem_cons hi, List.zip_cons_cons, List.filterMap_cons]
    by_cases hkt : t = ks[i]
    · rw [if_pos hkt]
      cases hb : bucketOf d t with
      | none => simp
      | some l =>
        simp only [Option.map_some]
        rw [if_pos hkt.symm]
        simp
    · rw [if_neg hkt]
      cases hb : bucketOf d t with
      | none => simp
      | some l =>
        rw [if_neg (fun hc => hkt hc.symm)]

theorem bucketOf_buildData (ks : List String) (cs : List Json) (t : String)
    (hlen : ks.length = cs.length) :
    bucketOf (buildData ks cs) t
      = if t ∈ ks then
          some ((ks.zip cs).filterMap (fun p => if p.1 = t then some p.2 else none))
        else none := by
  rw [buildData, bucketOf_buildGo ks t cs (initData ks) 0 (by omega)]
  rw [bucketOf_initData]
  by_cases ht : t ∈ ks
  · simp [ht]
  · simp [ht]

theorem keys_appendData (d : List (String × List Json)) (k : String) (v : Json) :
    (appendData d k v).map Prod.fst = d.map Prod.fst := by
  simp only [appendData, List.map_map]
  apply List.map_congr_left
  intro p _
  by_cases h : p.1 = k <;> simp [Function.comp, h]

theorem keys_buildGo (ks : List String) :
    ∀ (cs : List Json) (d : List (String × List Json)) (i : Nat),
      (buildGo ks d i cs).map Prod.fst = d.map Prod.fst := by
  intro cs
  induction cs with
  | nil => intro d i; rfl
  | cons v vs ih =>
    intro d i
    show (buildGo ks (appendData d (ks.getD (i % ks.length) "") v) (i + 1) vs).map Prod.fst = _
    rw [ih, keys_appendData]

theorem mem_keys_initData_go (c : String) :
    ∀ (ks : List String) (d : List (String × List Json)),
      c ∈ ((ks.foldl (fun d2 k =>
          if d2.any (fun p => p.1 = k) then d2 else d2 ++ [(k, [])]) d).map Prod.fst) →
      c ∈ d.map Prod.fst ∨ c ∈ ks := by
  intro ks
  induction ks with
  | nil => exact fun d h => Or.inl h
  | cons k rest ih =>
    intro d h
    simp only [List.foldl_cons] at h
    by_cases hany : d.any (fun p => p.1 = k)
    · rw [if_pos hany] at h
      rcases ih d h with h1 | h1
      · exact Or.inl h1
      · exact Or.inr (List.mem_cons_of_mem k h1)
    · rw [if_neg hany] at h
      rcases ih (d ++ [(k, [])]) h with h1 | h1
      · simp only [List.map_append, List.mem_append] at h1
        rcases h1 with h2 | h2
        · exact Or.inl h2
        · simp only [List.map_cons, List.map_nil, List.mem_singleton] at h2
          exact Or.inr (h2 ▸ List.mem_cons_self k rest)
      · exact Or.inr (List.mem_cons_of_mem k h1)

theorem buildData_keys_sub (ks : List String) (cs : List Json) (c : String)
    (h : c ∈ (buildData ks cs).map Prod.fst) : c ∈ ks := by
  rw [buildData, keys_buildGo] at h
  rcases mem_keys_initData_go c ks [] (by simpa [initData] using h) with h1 | h1
  · simp at h1
  · exact h1

theorem mem_summaryDf0_cols (r : Row) (c : String) (h : c ∈ (summaryDf0 r).1) :
    c ∈ key_cols := by
  unfold summaryDf0 at h
  cases hg : getCol r "job_response_output" with
  | none =>
    simp only [hg] at h
    exact h
  | some doc =>
    simp only [hg] at h
    cases hscan : scanDoc doc with
    | none =>
      simp only [hscan] at h
      exact h
    | some pr =>
      obtain ⟨ks, cs⟩ := pr
      simp only [hscan] at h
      by_cases hne : ks = []
      · rw [if_pos hne] at h
        simp at h
      · rw [if_neg hne] at h
        cases heq : dfFromData (buildData ks cs) with
        | none =>
          simp only [heq] at h
          exact h
        | some f =>
          simp only [heq] at h
          rw [dfFromData_cols _ _ _ heq] at h
          exact scanDoc_sub doc ks cs hscan c (buildData_keys_sub ks cs c h)

theorem mem_summaryFrame_cols (r : Row) (c : String) :
    c ∈ (summaryFrame r).1 ↔ c ∈ key_cols := by
  unfold summaryFrame
  rw [mem_fillCols]
  constructor
  · rintro (h | h)
    · exact mem_summaryDf0_cols r c h
    · exact h
  · exact Or.inr

theorem colNames_summarization_mem (r r2 : Row)
    (h : r2 ∈ analytics_call_summarization r) :
    colNames r2 = colNames r ++ (summaryFrame r).1 := by
  unfold analytics_call_summarization at h
  cases hfr : (summaryFrame r).2 with
  | nil =>
    simp only [hfr, List.mem_singleton] at h
    subst h
    rw [colNames_append]
    congr 1
    simp [colNames, List.map_map, Function.comp_def]
  | cons v0 vrest =>
    simp only [hfr, List.mem_map] at h
    obtain ⟨p, hp, rfl⟩ := h
    have hlen : p.2.length = (summaryFrame r).1.length := by
      apply summaryFrame_row_length
      rw [hfr]
      have hsnd : p.2 ∈ (v0 :: vrest).enum.map Prod.snd := List.mem_map_of_mem Prod.snd hp
      rwa [List.enum_map_snd] at hsnd
    rw [colNames_append]
    congr 1
    · by_cases h0 : p.1 = 0 <;> simp [h0, colNames_nullRow]
    · exact List.map_fst_zip _ _ (le_of_eq hlen.symm)

theorem summarization_length (r : Row) :
    (analytics_call_summarization r).length = max 1 (summaryFrame r).2.length := by
  unfold analytics_call_summarization
  cases hfr : (summaryFrame r).2 with
  | nil => simp [hfr]
  | cons v0 vrest =>
    simp only [hfr, List.length_map, List.enum_length, List.length_cons]
    omega

theorem contentList_contents (cs : List String) :
    contentList (Json.arr (cs.map (fun c => Json.obj [("Content", Json.str c)]))) = some cs := by
  induction cs with
  | nil => rfl
  | cons c rest ih =>
    simp only [contentList, Json.pyIter, List.map_cons, List.foldr_cons] at ih ⊢
    rw [ih]
    rfl

theorem labelContents_eq (cs : List String) :
    labelContents cs = (List.range cs.length).map
      (fun i => (["Speaker 1", "Speaker 2"].getD (i % 2) "") ++ ": " ++ cs.getD i "") := by
  apply List.ext_getElem
  · simp [labelContents]
  · intro i h1 h2
    have hi : i < cs.length := by simpa [labelContents] using h1
    simp only [labelContents, List.getElem_map, List.getElem_enum, List.getElem_range]
    rw [List.getD_eq_getElem cs "" hi]
    rfl

theorem getCol_parse (f : CharField) (r : Row) :
    getCol (parse_call_analytics_output r) (charName f)
      = some (charExtract f (getCol r "job_response_output")) := by
  have hmap : charSpecs.map Prod.fst = charFields.map charName := by
    simp [charSpecs, List.map_map, Function.comp_def]
  apply getCol_colSpecApply_mem charSpecs
  · rw [hmap]
    decide
  · intro p hp
    rw [charSpecs] at hp
    obtain ⟨f2, hf2, rfl⟩ := List.mem_map.mp hp
    cases f2 <;> decide
  · exact List.mem_map_of_mem (fun f2 => (charName f2, charExtract f2))
      (by cases f <;> decide)

/-- Claim C2: on the completely empty document `{}` the full extraction
pipeline produces exactly one output row in which every derived field
(transcript, the three summarization columns, the twelve characteristic
columns) is null, the input cells are untouched, and — the embedding being
total — no exception escapes any pass. -/
theorem pipeline_empty_doc_row :
    extraction_pipeline [mkJobRow "job1" (Json.obj [])]
      = [[("job_name", Json.str "job1"), ("job_response_output", Json.obj []),
          ("transcript", Json.null),
          ("IssuesDetected", Json.null), ("OutcomesDetected", Json.null),
          ("ActionItemsDetected", Json.null),
          ("overall_sentiment_customer", Json.null), ("overall_sentiment_agent", Json.null),
          ("sentiment_scores_agent_per_quarter", Json.null),
          ("sentiment_scores_customer_per_quarter", Json.null),
          ("non_talk_time_sec", Json.null),
          ("interupted_time_agent_sec", Json.null), ("interupted_time_customer_sec", Json.null),
          ("talk_speed_words_per_min_agent", Json.null),
          ("talk_speed_words_per_min_customer", Json.null),
          ("talk_time_agent_sec", Json.null), ("talk_time_customer_sec", Json.null),
          ("matched_categories", Json.null)]] := by
  decide

/-- Claim C3: each characteristic field is an independent extraction attempt —
the field's output depends only on the value found at its own fixed path (two
documents agreeing there yield the same field), and a failing path yields null
for that field alone; totality of the embedding is the no-raise guarantee. -/
theorem char_fields_independent (f : CharField) (n : String) (d d2 : Json) :
    (walk d (charPath f) = walk d2 (charPath f) →
      getCol (parse_call_analytics_output (mkJobRow n d)) (charName f)
        = getCol (parse_call_analytics_output (mkJobRow n d2)) (charName f))
    ∧ (walk d (charPath f) = none →
      getCol (parse_call_analytics_output (mkJobRow n d)) (charName f) = some Json.null) := by
  have hdoc : ∀ d3 : Json, getCol (mkJobRow n d3) "job_response_output" = some d3 := by
    intro d3
    simp [mkJobRow, getCol]
  constructor
  · intro h
    rw [getCol_parse, getCol_parse, hdoc, hdoc]
    simp only [charExtract]
    rw [h]
  · intro h
    rw [getCol_parse, hdoc]
    simp only [charExtract, h]

/-- Witness for C3: the sentiment document and the non-talk-only document agree
on the non-talk-time path, so that field agrees; on the empty document the
matched-categories path fails and the field is null. -/
theorem char_fields_independent_witness :
    getCol (parse_call_analytics_output (mkJobRow "j" docSentiment)) "non_talk_time_sec"
      = getCol (parse_call_analytics_output (mkJobRow "j" docNonTalkOnly)) "non_talk_time_sec"
    ∧ getCol (parse_call_analytics_output (mkJobRow "j" (Json.obj []))) "matched_categories"
      = some Json.null :=
  ⟨(char_fields_independent .ntt "j" docSentiment docNonTalkOnly).1 (by decide),
   (char_fields_independent .mc "j" (Json.obj []) (Json.obj [])).2 (by decide)⟩

/-- Claim C7: each millisecond field (non-talk time, the first interruption
entry per role, talk time per role) is the value at its path divided exactly
by 1000 (exact rational division). -/
theorem ms_fields_divide_by_1000 (n : String) (d : Json) (q : ℚ) :
    (walk d (charPath .ntt) = some (Json.num q) →
      getCol (parse_call_analytics_output (mkJobRow n d)) "non_talk_time_sec"
        = some (Json.num (q / 1000)))
    ∧ (walk d (charPath .ita) = some (Json.num q) →
      getCol (parse_call_analytics_output (mkJobRow n d)) "interupted_time_agent_sec"
        = some (Json.num (q / 1000)))
    ∧ (walk d (charPath .itc) = some (Json.num q) →
      getCol (parse_call_analytics_output (mkJobRow n d)) "interupted_time_customer_sec"
        = some (Json.num (q / 1000)))
    ∧ (walk d (charPath .tta) = some (Json.num q) →
      getCol (parse_call_analytics_output (mkJobRow n d)) "talk_time_agent_sec"
        = some (Json.num (q / 1000)))
    ∧ (walk d (charPath .ttc) = some (Json.num q) →
      getCol (parse_call_analytics_output (mkJobRow n d)) "talk_time_customer_sec"
        = some (Json.num (q / 1000))) := by
  have hdoc : getCol (mkJobRow n d) "job_response_output" = some d := by
    simp [mkJobRow, getCol]
  refine ⟨fun h => ?_, fun h => ?_, fun h => ?_, fun h => ?_, fun h => ?_⟩
  · rw [show ("non_talk_time_sec" : String) = charName .ntt from rfl, getCol_parse, hdoc]
    simp only [charExtract, h, charProj, divMs, Json.asNum]
  · rw [show ("interupted_time_agent_sec" : String) = charName .ita from rfl, getCol_parse, hdoc]
    simp only [charExtract, h, charProj, divMs, Json.asNum]
  · rw [show ("interupted_time_customer_sec" : String) = charName .itc from rfl, getCol_parse, hdoc]
    simp only [charExtract, h, charProj, divMs, Json.asNum]
  · rw [show ("talk_time_agent_sec" : String) = charName .tta from rfl, getCol_parse, hdoc]
    simp only [charExtract, h, charProj, divMs, Json.asNum]
  · rw [show ("talk_time_customer_sec" : String) = charName .ttc from rfl, getCol_parse, hdoc]
    simp only [charExtract, h, charProj, divMs, Json.asNum]

/-- Witness for C7: TotalTimeMillis = 4500 yields non_talk_time_sec = 4.5. -/
theorem ms_fields_divide_by_1000_witness :
    getCol (parse_call_analytics_output (mkJobRow "j" docNonTalkOnly)) "non_talk_time_sec"
      = some (Json.num 4.5) := by
  have h := (ms_fields_divide_by_1000 "j" docNonTalkOnly 4500).1 (by decide)
  have hq : (4500 / 1000 : ℚ) = 4.5 := by norm_num
  rw [h, hq]

/-- Counterexample for C9: on a list-shaped document the transcript assembler
does not iterate the list's elements as documents — it yields null, although
the very same document as a bare mapping yields a transcript. -/
theorem list_doc_not_iterated_counterexample :
    analytics_call_transcript docListShaped ≠ some "Speaker 1: hi"
    ∧ analytics_call_transcript docListShaped = none
    ∧ analytics_call_transcript docBare = some "Speaker 1: hi" := by
  refine ⟨by decide, rfl, by decide⟩

/-- Amended C9: a list-shaped document nulls every output — all twelve
characteristic fields, the transcript, and the three summarization columns —
because each assembler receives the one-row frame's cell as a single opaque
value and fails on it; none of them iterates the list's elements. -/
theorem list_doc_all_null (xs : List Json) (n : String) :
    (∀ f : CharField,
      getCol (parse_call_analytics_output (mkJobRow n (Json.arr xs))) (charName f)
        = some Json.null)
    ∧ analytics_call_transcript (Json.arr xs) = none
    ∧ analytics_call_summarization (mkJobRow n (Json.arr xs))
        = [mkJobRow n (Json.arr xs) ++ key_cols.map (fun c => (c, Json.null))] := by
  have hdoc : getCol (mkJobRow n (Json.arr xs)) "job_response_output" = some (Json.arr xs) := by
    simp [mkJobRow, getCol]
  refine ⟨?_, rfl, ?_⟩
  · intro f
    rw [getCol_parse, hdoc]
    cases f <;> rfl
  · have hfr : summaryFrame (mkJobRow n (Json.arr xs)) = (key_cols, []) := by
      unfold summaryFrame summaryDf0
      simp only [hdoc, scanDoc, Json.index]
      rfl
    unfold analytics_call_summarization
    rw [hfr]

/-- Claim C10: when the scan records tags but the per-tag bucket counts are
uneven, `pd.DataFrame` raises, the except branch replaces the frame by the
empty three-column frame, and all three summarization columns come out null —
every recorded observation is discarded. -/
theorem uneven_buckets_fallback (r : Row) (doc : Json) (ks : List String) (cs : List Json)
    (hdoc : getCol r "job_response_output" = some doc)
    (hscan : scanDoc doc = some (ks, cs))
    (hne : ¬ ks = [])
    (hdf : dfFromData (buildData ks cs) = none) :
    analytics_call_summarization r = [r ++ key_cols.map (fun c => (c, Json.null))] := by
  have hfr : summaryFrame r = (key_cols, []) := by
    unfold summaryFrame summaryDf0
    simp only [hdoc, hscan, if_neg hne, hdf]
    rfl
  unfold analytics_call_summarization
  rw [hfr]

/-- Witness for C10: two IssuesDetected contents and one OutcomesDetected
content give uneven buckets; the whole summary is discarded. -/
theorem uneven_buckets_fallback_witness :
    analytics_call_summarization (mkJobRow "j" docUneven)
      = [mkJobRow "j" docUneven ++ key_cols.map (fun c => (c, Json.null))] :=
  uneven_buckets_fallback (mkJobRow "j" docUneven) docUneven
    ["IssuesDetected", "IssuesDetected", "OutcomesDetected"]
    [Json.str "a", Json.str "b", Json.str "c"]
    (by decide) (by decide) (by decide) (by decide)

/-- Claim C5: for a non-empty utterance sequence with string contents, the
transcript assembler labels item i with the roster speaker at position i mod 2
and joins with ", "; a defaulting conjunct is not needed here because
`contentItem` itself embeds the `.get("Content", "")` default. -/
theorem transcript_positional_labeling (cs : List String) (hne : cs ≠ []) :
    analytics_call_transcript (mkTranscriptDoc cs)
      = some (String.intercalate ", " ((List.range cs.length).map
          (fun i => (["Speaker 1", "Speaker 2"].getD (i % 2) "") ++ ": " ++ cs.getD i ""))) := by
  obtain ⟨c0, rest, rfl⟩ := List.exists_cons_of_ne_nil hne
  unfold analytics_call_transcript mkTranscriptDoc
  simp only [show (Json.obj [("Transcript",
        Json.arr ((c0 :: rest).map (fun c => Json.obj [("Content", Json.str c)])))]).dictGet
        "Transcript" (Json.obj [])
      = some (Json.arr ((c0 :: rest).map (fun c => Json.obj [("Content", Json.str c)])))
    from rfl,
    show (Json.arr ((c0 :: rest).map (fun c => Json.obj [("Content", Json.str c)]))).truthy
      = true from rfl,
    if_true, contentList_contents, labelContents_eq]

/-- Witness for C5: contents ["hi", "hello", "bye"] produce
"Speaker 1: hi, Speaker 2: hello, Speaker 1: bye". -/
theorem transcript_positional_labeling_witness :
    analytics_call_transcript (mkTranscriptDoc ["hi", "hello", "bye"])
      = some "Speaker 1: hi, Speaker 2: hello, Speaker 1: bye" := by
  have h := transcript_positional_labeling ["hi", "hello", "bye"] (by decide)
  rw [h]
  rfl

/-- Claim C6: bucketing of the scanned (tag, Content) observations preserves
encounter order within each tag — a tag's bucket is exactly the subsequence of
scanned contents carrying that tag, in scan order (no sorting). -/
theorem bucketing_preserves_order (doc : Json) (ks : List String) (cs : List Json)
    (h : scanDoc doc = some (ks, cs)) (t : String) :
    bucketOf (buildData ks cs) t
      = if t ∈ ks then
          some ((ks.zip cs).filterMap (fun p => if p.1 = t then some p.2 else none))
        else none :=
  bucketOf_buildData ks cs t (scanDoc_len doc ks cs h)

/-- Witness for C6: IssuesDetected contents scanned at positions 0 and 3 end up
in the IssuesDetected bucket in that same relative order. -/
theorem bucketing_preserves_order_witness :
    bucketOf (buildData
        ["IssuesDetected", "OutcomesDetected", "OutcomesDetected", "IssuesDetected"]
        [Json.str "c0", Json.str "c1", Json.str "c2", Json.str "c3"]) "IssuesDetected"
      = some [Json.str "c0", Json.str "c3"] := by
  have h := bucketing_preserves_order docInterleaved
    ["IssuesDetected", "OutcomesDetected", "OutcomesDetected", "IssuesDetected"]
    [Json.str "c0", Json.str "c1", Json.str "c2", Json.str "c3"] (by decide) "IssuesDetected"
  rw [h]
  decide

/-- Counterexample for C4: a one-row table whose document carries two
IssuesDetected observations produces a two-row output — the row count is not
preserved. -/
theorem summary_call_public_fnt_row_count_counterexample :
    (summary_call_public_fnt [mkJobRow "j" docTwoIssues]).length
      ≠ ([mkJobRow "j" docTwoIssues] : List Row).length := by
  decide

/-- Amended C4: build_summaries applies the assembler to each row independently
and concatenates the per-row frames in input order; a row contributes
max 1 k output rows where k is its summary frame's row count, so the total row
count is preserved exactly when every row's summary frame has at most one row
(at most one observation per tag, or none, or a scan failure). -/
theorem summary_call_public_fnt_structure :
    (∀ t : List Row, summary_call_public_fnt t = (t.map analytics_call_summarization).flatten)
    ∧ (∀ r : Row, (analytics_call_summarization r).length = max 1 (summaryFrame r).2.length)
    ∧ (∀ t : List Row, (∀ r ∈ t, (summaryFrame r).2.length ≤ 1) →
        (summary_call_public_fnt t).length = t.length) := by
  refine ⟨fun t => rfl, summarization_length, ?_⟩
  intro t ht
  induction t with
  | nil => rfl
  | cons r rest ih =>
    have h1 : (analytics_call_summarization r).length = 1 := by
      rw [summarization_length]
      have h2 := ht r (List.mem_cons_self r rest)
      omega
    show ((analytics_call_summarization r)
        ++ (rest.map analytics_call_summarization).flatten).length = rest.length + 1
    rw [List.length_append, h1]
    have h2 := ih (fun r2 hr2 => ht r2 (List.mem_cons_of_mem r hr2))
    simp only [summary_call_public_fnt] at h2
    omega

/-- Witness for amended C4: a one-row table whose summary frame is empty keeps
its row count. -/
theorem summary_call_public_fnt_structure_witness :
    (summary_call_public_fnt [mkJobRow "e" (Json.obj [])]).length = 1 :=
  summary_call_public_fnt_structure.2.2 [mkJobRow "e" (Json.obj [])] (by decide)

/-- Counterexample for C8: running the extraction passes a second time on the
first run's output is not the identity — the summarization pass appends a
second copy of its three columns. -/
theorem pipeline_not_idempotent_counterexample :
    extraction_pipeline (extraction_pipeline [mkJobRow "j" (Json.obj [])])
      ≠ extraction_pipeline [mkJobRow "j" (Json.obj [])] := by
  decide

/-- Amended C8: the transcript and characteristics passes are idempotent (they
overwrite their columns with values recomputed from the unchanged attached
document), but the full pipeline is not: its summarization pass concatenates
the three tag columns again, duplicating them, as the counterexample shows. -/
theorem passes_idempotent :
    (∀ t : List Row, transcript_call_public_fnt (transcript_call_public_fnt t) = transcript_call_public_fnt t)
    ∧ (∀ t : List Row, parse_pass (parse_pass t) = parse_pass t) := by
  constructor
  · intro t
    show List.map (colSpecApply [("transcript", transcriptVal)])
        (List.map (colSpecApply [("transcript", transcriptVal)]) t) = _
    rw [List.map_map]
    apply List.map_congr_left
    intro r _
    exact colSpecApply_idem [("transcript", transcriptVal)] (by decide) (by decide) r
  · intro t
    show List.map parse_call_analytics_output (List.map parse_call_analytics_output t) = _
    rw [List.map_map]
    apply List.map_congr_left
    intro r _
    simp only [Function.comp_apply]
    unfold parse_call_analytics_output
    apply colSpecApply_idem
    · rw [show charSpecs.map Prod.fst = charFields.map charName from by
        simp [charSpecs, List.map_map, Function.comp_def]]
      decide
    · intro p hp
      rw [charSpecs] at hp
      obtain ⟨f2, hf2, rfl⟩ := List.mem_map.mp hp
      cases f2 <;> decide

/-- Claim C1: every row of the full pipeline's output over one job row has
exactly the full fixed column set — the two input columns, `transcript`, the
three summarization columns and the twelve characteristic columns — whatever
the shape of the attached document; absent data is a null cell in an existing
column, never a missing column. -/
theorem full_fixed_column_set (name : String) (doc : Json) (r2 : Row)
    (h : r2 ∈ extraction_pipeline [mkJobRow name doc]) (c : String) :
    c ∈ colNames r2 ↔ c ∈ fullCols := by
  simp only [extraction_pipeline, parse_pass, List.mem_map] at h
  obtain ⟨r1, hr1, rfl⟩ := h
  have hsp : summary_call_public_fnt (transcript_call_public_fnt [mkJobRow name doc])
      = analytics_call_summarization
          (colSpecApply [("transcript", transcriptVal)] (mkJobRow name doc)) := by
    simp [summary_call_public_fnt, transcript_call_public_fnt]
  rw [hsp] at hr1
  have hnames1 := colNames_summarization_mem _ r1 hr1
  simp only [parse_call_analytics_output]
  rw [mem_colNames_colSpecApply, hnames1]
  rw [show charSpecs.map Prod.fst = charFields.map charName from by
    simp [charSpecs, List.map_map, Function.comp_def]]
  simp only [List.mem_append, mem_colNames_colSpecApply, mem_summaryFrame_cols]
  simp only [fullCols, List.mem_append, mkJobRow, colNames, List.map_cons, List.map_nil,
    List.mem_cons, List.mem_singleton, List.not_mem_nil]
  tauto

/-- Witness for C1: on the empty document, the transcript column is present in
the output row exactly because it belongs to the fixed column set. -/
theorem full_fixed_column_set_witness :
    ("transcript" ∈ colNames
        [("job_name", Json.str "j"), ("job_response_output", Json.obj []),
         ("transcript", Json.null),
         ("IssuesDetected", Json.null), ("OutcomesDetected", Json.null),
         ("ActionItemsDetected", Json.null),
         ("overall_sentiment_customer", Json.null), ("overall_sentiment_agent", Json.null),
         ("sentiment_scores_agent_per_quarter", Json.null),
         ("sentiment_scores_customer_per_quarter", Json.null),
         ("non_talk_time_sec", Json.null),
         ("interupted_time_agent_sec", Json.null), ("interupted_time_customer_sec", Json.null),
         ("talk_speed_words_per_min_agent", Json.null),
         ("talk_speed_words_per_min_customer", Json.null),
         ("talk_time_agent_sec", Json.null), ("talk_time_customer_sec", Json.null),
         ("matched_categories", Json.null)])
      ↔ "transcript" ∈ fullCols :=
  full_fixed_column_set "j" (Json.obj [])
    [("job_name", Json.str "j"), ("job_response_output", Json.obj []),
     ("transcript", Json.null),
     ("IssuesDetected", Json.null), ("OutcomesDetected", Json.null),
     ("ActionItemsDetected", Json.null),
     ("overall_sentiment_customer", Json.null), ("overall_sentiment_agent", Json.null),
     ("sentiment_scores_agent_per_quarter", Json.null),
     ("sentiment_scores_customer_per_quarter", Json.null),
     ("non_talk_time_sec", Json.null),
     ("interupted_time_agent_sec", Json.null), ("interupted_time_customer_sec", Json.null),
     ("talk_speed_words_per_min_agent", Json.null),
     ("talk_speed_words_per_min_customer", Json.null),
     ("talk_time_agent_sec", Json.null), ("talk_time_customer_sec", Json.null),
     ("matched_categories", Json.null)]
    (by decide) "transcript"
